import Mathlib

/-!
Verification of the tradingclocks Market Session Clock Engine.

The TypeScript source is embedded shallowly:

* An `Instant` is an `Int`, milliseconds since the Unix epoch (the value of
  `Date.getTime()`).
* An IANA timezone is abstracted as its offset function `offsetMin :
  Int → Int` (signed minutes ahead of UTC in effect at a given instant).
  The platform `Intl.DateTimeFormat` facility, when asked for the wall-clock
  components of instant `t` in the zone, renders the calendar decomposition
  of `t + offsetMin t * 60000`; real IANA zones are particular offset
  functions (e.g. a constant function for fixed-offset zones such as
  Etc/GMT+12).
* A wall-clock time string "HH:MM" is represented by its minute-of-day
  `h * 60 + m : Int`; a calendar date string "YYYY-MM-DD" by the
  `CivilDate` triple obtained from the proleptic-Gregorian decomposition
  of an epoch-day number (which is exactly what the en-CA locale format
  produces, so string equality of date strings coincides with `CivilDate`
  equality for four-digit years).
* JavaScript `Math.floor` division of nonnegative milliseconds and the
  calendar decomposition of instants both coincide with `Int`'s `/` and `%`
  (Euclidean division, which is floor division for positive divisors).
* `Date.prototype.setDate(getDate() + n)` adds `n` calendar days in the
  host timezone; the host clock is modelled as fixed-offset, so adding a
  day adds exactly 86400000 ms.
-/

/-- A timezone, abstracted as the signed UTC offset (in minutes) it has in
effect at each instant. -/
structure Timezone where
  offsetMin : Int → Int

/-- The wall-clock milliseconds shown by the locale formatter for instant
`t` in zone `tz`: the instant shifted by the offset in effect at `t`. -/
def localClock (tz : Timezone) (t : Int) : Int :=
  t + tz.offsetMin t * 60000

/-- The epoch-day number of the calendar date shown for `t` in `tz`
(day 0 = 1970-01-01). -/
def localDay (tz : Timezone) (t : Int) : Int :=
  localClock tz t / 86400000

/-- The minute-of-day (`hour * 60 + minute`) shown for `t` in `tz`. -/
def localMinuteOfDay (tz : Timezone) (t : Int) : Int :=
  localClock tz t / 60000 % 1440

/-- The minute-of-day of the UTC reading of `t` (`getUTCHours() * 60 +
getUTCMinutes()`). -/
def utcMinuteOfDay (t : Int) : Int :=
  t / 60000 % 1440

/-- The empirical offset derivation of `parseTimeInTimezone`
(src/timezone.ts): the signed difference in minutes between the zone's
formatted wall clock and the UTC wall clock of the same instant, adjusted
by plus or minus 1440 when the raw difference crosses a day boundary. -/
def resolveOffsetMinutes (tz : Timezone) (t : Int) : Int :=
  let raw := localMinuteOfDay tz t - utcMinuteOfDay t
  let adj := if raw > 720 then raw - 1440 else raw
  if adj < -720 then adj + 1440 else adj

/-- The naive instant of `parseTimeInTimezone`: the current calendar date
in the target zone combined with the requested minute-of-day `mod`, read
literally as UTC (the `targetLocalISO + 'Z'` step). -/
def naiveInstant (tz : Timezone) (now : Int) (mod : Int) : Int :=
  localDay tz now * 86400000 + mod * 60000

/-- `parseTimeInTimezone(timeStr, timezone)` from src/timezone.ts: build
the naive instant for today's date in the zone, derive the zone offset
empirically at that naive instant, and subtract it. `mod` is the
minute-of-day of `timeStr`. -/
def parseTimeInTimezone (tz : Timezone) (now : Int) (mod : Int) : Int :=
  let naive := naiveInstant tz now mod
  naive - resolveOffsetMinutes tz naive * 60000

/-- The round trip of the spec's first testable property: take `t`'s
exchange-local calendar date and wall time in `tz` and feed them back
through the local-time-to-instant conversion. -/
def roundTrip (tz : Timezone) (t : Int) : Int :=
  parseTimeInTimezone tz t (localMinuteOfDay tz t)

/-- A constant +13:00 zone: the offset Pacific/Auckland has during the
southern-hemisphere summer (NZDT).  Being constant, it has no DST
transition at any instant. -/
def fixedPlus13 : Timezone := ⟨fun _ => 780⟩

/-- A constant −12:00 zone: the offset of the real IANA zone Etc/GMT+12. -/
def etcGMTPlus12 : Timezone := ⟨fun _ => -720⟩

-- Offset resolution is exact for offsets strictly inside (-720, 720)
-- when the zone's offset at the probed instant is `o`.
theorem resolveOffsetMinutes_exact (tz : Timezone) (t o : Int)
    (h : tz.offsetMin t = o) (h1 : -720 < o) (h2 : o < 720) :
    resolveOffsetMinutes tz t = o := by
  unfold resolveOffsetMinutes localMinuteOfDay utcMinuteOfDay localClock
  rw [h]
  have e1 : (t + o * 60000) / 60000 = t / 60000 + o := by
    rw [Int.add_mul_ediv_right _ _ (by norm_num)]
  rw [e1]
  have m1 : 0 ≤ (t / 60000 + o) % 1440 := Int.emod_nonneg _ (by norm_num)
  have m2 : (t / 60000 + o) % 1440 < 1440 := Int.emod_lt_of_pos _ (by norm_num)
  have m3 : 0 ≤ t / 60000 % 1440 := Int.emod_nonneg _ (by norm_num)
  have m4 : t / 60000 % 1440 < 1440 := Int.emod_lt_of_pos _ (by norm_num)
  have key : ((t / 60000 + o) % 1440 - t / 60000 % 1440 - o) % 1440 = 0 := by
    omega
  simp only []
  split_ifs <;> omega

/-- C7 (amended): the empirically derived offset always lies in the closed
interval [−720, 720] — the lower endpoint −720 is attainable, so the
half-open interval (−720, 720] of the original claim is off by one at the
left end. -/
theorem resolveOffsetMinutes_range (tz : Timezone) (t : Int) :
    -720 ≤ resolveOffsetMinutes tz t ∧ resolveOffsetMinutes tz t ≤ 720 := by
  unfold resolveOffsetMinutes localMinuteOfDay utcMinuteOfDay localClock
  simp only []
  split_ifs <;> omega

/-- C7 counterexample: in the real fixed-offset zone Etc/GMT+12 (UTC−12:00),
probing the resolver at noon UTC yields exactly −720, which lies outside the
claimed half-open interval (−720, 720]. -/
theorem resolveOffsetMinutes_boundary_counterexample :
    resolveOffsetMinutes etcGMTPlus12 43200000 = -720 := by decide

/-- C1 (amended): the date/time round trip through `parseTimeInTimezone`
returns `t` truncated to the minute — hence `t` to within one minute —
whenever the zone's offset is the same at `t` and at the naive probe
instant (no DST transition in the window) and lies strictly inside
(−720, 720) minutes.  For offsets of ±12 hours and beyond the conversion
can be wrong by a full day (see the counterexample). -/
theorem parseTimeInTimezone_roundTrip (tz : Timezone) (t o : Int)
    (h1 : tz.offsetMin t = o)
    (h2 : tz.offsetMin (naiveInstant tz t (localMinuteOfDay tz t)) = o)
    (hlo : -720 < o) (hhi : o < 720) :
    roundTrip tz t = t / 60000 * 60000 ∧
    roundTrip tz t ≤ t ∧ t - roundTrip tz t < 60000 := by
  have hres : resolveOffsetMinutes tz (naiveInstant tz t (localMinuteOfDay tz t)) = o :=
    resolveOffsetMinutes_exact _ _ _ h2 hlo hhi
  unfold roundTrip parseTimeInTimezone
  simp only []
  rw [hres]
  unfold naiveInstant localDay localMinuteOfDay localClock
  rw [h1]
  refine ⟨by omega, by omega, by omega⟩

/-- Witness for the round-trip theorem: in a fixed UTC−5 zone, the instant
2026-01-01T17:00:00Z (noon exchange-local) is a whole minute and survives the
round trip exactly. -/
theorem parseTimeInTimezone_roundTrip_witness :
    roundTrip ⟨fun _ => -300⟩ 1767286800000 = 1767286800000 := by
  have h := parseTimeInTimezone_roundTrip ⟨fun _ => -300⟩ 1767286800000 (-300)
    rfl rfl (by norm_num) (by norm_num)
  exact h.1.trans (by norm_num)

/-- C1 counterexample: in a constant +13:00 zone (Pacific/Auckland during
NZDT; no DST transition exists anywhere in a constant-offset zone), the
round trip of the epoch instant returns a value one full day later, not
within one minute. -/
theorem roundTrip_dateline_counterexample :
    roundTrip fixedPlus13 0 = 86400000 ∧
      60000 < (roundTrip fixedPlus13 0 - 0).natAbs := by
  refine ⟨by decide, by decide⟩

/-- A calendar date, the components of a "YYYY-MM-DD" date string.  The
en-CA locale format used by `getMarketDateStr` renders exactly these
components zero-padded, so equality of the rendered strings coincides with
equality of the triples. -/
structure CivilDate where
  year : Int
  month : Int
  day : Int
deriving DecidableEq

/-- The proleptic-Gregorian calendar date of an epoch-day number (day 0 =
1970-01-01).  This is the decomposition the platform Intl formatter
performs when rendering a date. -/
def civilFromDays (z0 : Int) : CivilDate :=
  let z := z0 + 719468
  let era := z / 146097
  let doe := z - era * 146097
  let yoe := (doe - doe / 1460 + doe / 36524 - doe / 146096) / 365
  let y := yoe + era * 400
  let doy := doe - (365 * yoe + yoe / 4 - yoe / 100)
  let mp := (5 * doy + 2) / 153
  let d := doy - (153 * mp + 2) / 5 + 1
  let m := mp + (if mp < 10 then 3 else -9)
  ⟨y + (if m ≤ 2 then 1 else 0), m, d⟩

/-- The calendar date shown for instant `t` in zone `tz` — the
`getMarketDateStr` helper of `getMarketStatus`. -/
def marketDate (tz : Timezone) (t : Int) : CivilDate :=
  civilFromDays (localDay tz t)

/-- The `status` field of a holiday entry: `'closed' | 'early-close'`. -/
inductive HolidayStatus where
  | closed
  | earlyClose
deriving DecidableEq

/-- One holiday entry (src/holidays.ts `Holiday`): a calendar date, a
display name, a status, and optional open/close wall-time overrides
(minute-of-day). -/
structure Holiday where
  date : CivilDate
  name : String
  status : HolidayStatus
  openTime : Option Int := none
  closeTime : Option Int := none
deriving DecidableEq

/-- The value stored for one market in one year of the holiday table:
either a list of entries or an alias string naming another market. -/
inductive MarketHolidayData where
  | entries : List Holiday → MarketHolidayData
  | aliasTo : String → MarketHolidayData
deriving DecidableEq

/-- The holiday table: year, then market id, then entries-or-alias.  JS
object keys are unique, so an association list models the lookups. -/
abbrev HolidaysConfig := List (Int × List (String × MarketHolidayData))

/-- `getMarketHolidays(marketId, year)` from src/holidays.ts, returning the
JavaScript value produced by `(marketData as Holiday[]) || []`: a missing
year or market gives the empty list, one level of alias is re-looked-up,
and — because a non-empty string is truthy — a second alias string is
returned as-is (escaping the declared `Holiday[]` return type), while the
empty string falls back to the empty list. -/
def getMarketHolidays (cfg : HolidaysConfig) (marketId : String)
    (year : Int) : MarketHolidayData :=
  match cfg.lookup year with
  | none => .entries []
  | some yearData =>
    let marketData := yearData.lookup marketId
    let marketData2 :=
      match marketData with
      | some (.aliasTo s) => yearData.lookup s
      | _ => marketData
    match marketData2 with
    | none => .entries []
    | some (.aliasTo s) => if s = "" then .entries [] else .aliasTo s
    | some (.entries es) => .entries es

/-- The entry list carried by a `MarketHolidayData` value.  On an
`aliasTo` value the JavaScript code would crash calling `.find` on a
string; theorems over `getMarketStatus` therefore assume a well-formed
table (`wellFormedConfig`), under which this case never arises. -/
def holidayEntriesOf : MarketHolidayData → List Holiday
  | .entries es => es
  | .aliasTo _ => []

/-- The holiday entries `getMarketStatus` iterates over for a market and
year. -/
def getMarketHolidaysList (cfg : HolidaysConfig) (marketId : String)
    (year : Int) : List Holiday :=
  holidayEntriesOf (getMarketHolidays cfg marketId year)

/-- A year table is well formed when every alias points at an entry list,
at nothing, or at the empty string (the cases in which the JavaScript code
does not crash downstream). -/
def wellFormedYear (yd : List (String × MarketHolidayData)) : Bool :=
  yd.all fun kv =>
    match kv.2 with
    | .aliasTo s =>
      match yd.lookup s with
      | some (.aliasTo s2) => s2 == ""
      | _ => true
    | .entries _ => true

/-- A holiday table is well formed when all of its year tables are. -/
def wellFormedConfig (cfg : HolidaysConfig) : Bool :=
  cfg.all fun ykv => wellFormedYear ykv.2

/-- A market (src/types.ts `Market`), stripped of the display-only fields
(`name`, `code`, country and region data) that `getMarketStatus` never
reads.  Wall times are minute-of-day values of the "HH:MM" strings. -/
structure Market where
  id : String
  timezone : Timezone
  openTime : Int
  closeTime : Int
  lunchStart : Option Int := none
  lunchEnd : Option Int := none

/-- A per-market override of the open/close wall times (src/types.ts
`TimeOverride`); `none` plays the role of `null`/`undefined`, which the
code treats through `||` as "use the default". -/
structure TimeOverride where
  openTime : Option Int := none
  closeTime : Option Int := none

/-- The discriminants of `MarketStatus.nextEvent`. -/
inductive NextEvent where
  | opens
  | closes
  | lunchStarts
  | reopens
deriving DecidableEq

/-- The classification output (`MarketStatus` of src/types.ts).  Fields the
JavaScript object leaves `undefined` in a branch are `false`/`none` here,
matching the truthiness checks consumers perform. -/
structure MarketStatus where
  isOpen : Bool
  isWeekend : Bool
  timeUntil : Int
  nextEvent : NextEvent
  nextEventTime : Int
  holidayName : Option String := none
  isTodayHoliday : Bool := false
  isOnLunch : Bool := false
  lunchStart : Option Int := none
  lunchEnd : Option Int := none
deriving DecidableEq

/-- The weekday number of an epoch-day number under the code's
`{Sun: 0, ..., Sat: 6}` map (epoch day 0, 1970-01-01, was a Thursday). -/
def weekdayOfDay (d : Int) : Int :=
  (d + 4) % 7

/-- The `getDayInMarket` helper of `getMarketStatus`: the weekday of the
exchange-local calendar date of `t`. -/
def getDayInMarket (tz : Timezone) (t : Int) : Int :=
  weekdayOfDay (localDay tz t)

/-- The `getHolidayForDate` helper defined inside `getMarketStatus`: the
first holiday entry for the market whose date string equals the
exchange-local date string of `t` (year taken from the first four
characters of the date string). -/
def holidayForDate (cfg : HolidaysConfig) (marketId : String)
    (tz : Timezone) (t : Int) : Option Holiday :=
  let d := marketDate tz t
  (getMarketHolidaysList cfg marketId d.year).find? fun h => h.date = d

/-- The `findNextTradingDay` helper of `getMarketStatus`.  The fuel
argument counts the remaining loop iterations (`maxAttempts − attempts`,
initially 14); every skip consumes one, and exhausting the fuel returns the
last candidate unchanged — the degraded fallback. -/
def findNextTradingDay (cfg : HolidaysConfig) (marketId : String)
    (tz : Timezone) : Nat → Int → Int
  | 0, candidate => candidate
  | fuel + 1, candidate =>
    let candidateDay := getDayInMarket tz candidate
    if candidateDay = 0 then
      findNextTradingDay cfg marketId tz fuel (candidate + 86400000)
    else if candidateDay = 6 then
      findNextTradingDay cfg marketId tz fuel (candidate + 2 * 86400000)
    else
      match holidayForDate cfg marketId tz candidate with
      | some h =>
        if h.status = .closed then
          findNextTradingDay cfg marketId tz fuel (candidate + 86400000)
        else candidate
      | none => candidate

/-- The part of `getMarketStatus` below the today-is-a-holiday block:
weekend handling, then the before-open / lunch / open / after-close
comparison chain.  `openT`/`closeT` are the effective wall times after the
override and early-close adjustments, `holidayName` the name recorded from
today's holiday entry (if any). -/
def statusMain (cfg : HolidaysConfig) (market : Market) (now : Int)
    (openT closeT : Int) (holidayName : Option String) : MarketStatus :=
  let openDate := parseTimeInTimezone market.timezone now openT
  let closeDate := parseTimeInTimezone market.timezone now closeT
  let dayInMarket := getDayInMarket market.timezone now
  if dayInMarket = 0 ∨ dayInMarket = 6 then
    let daysUntilMonday : Int := if dayInMarket = 0 then 1 else 2
    let potentialMonday := openDate + daysUntilMonday * 86400000
    let nextOpen := findNextTradingDay cfg market.id market.timezone 14 potentialMonday
    let mondayHoliday := holidayForDate cfg market.id market.timezone potentialMonday
    { isOpen := false, isWeekend := true,
      timeUntil := nextOpen - now, nextEvent := .opens, nextEventTime := nextOpen,
      holidayName :=
        match mondayHoliday with
        | some h => if h.status = .closed then some h.name else none
        | none => none }
  else if now < openDate then
    { isOpen := false, isWeekend := false, timeUntil := openDate - now,
      nextEvent := .opens, nextEventTime := openDate, holidayName := holidayName }
  else if openDate ≤ now ∧ now < closeDate then
    match market.lunchStart, market.lunchEnd with
    | some ls, some le =>
      let lunchStartDate := parseTimeInTimezone market.timezone now ls
      let lunchEndDate := parseTimeInTimezone market.timezone now le
      if lunchStartDate ≤ now ∧ now < lunchEndDate then
        { isOpen := false, isWeekend := false, timeUntil := lunchEndDate - now,
          nextEvent := .reopens, nextEventTime := lunchEndDate,
          holidayName := holidayName, isOnLunch := true,
          lunchStart := some lunchStartDate, lunchEnd := some lunchEndDate }
      else if now < lunchStartDate then
        { isOpen := true, isWeekend := false, timeUntil := lunchStartDate - now,
          nextEvent := .lunchStarts, nextEventTime := lunchStartDate,
          holidayName := holidayName, isOnLunch := false,
          lunchStart := some lunchStartDate, lunchEnd := some lunchEndDate }
      else
        { isOpen := true, isWeekend := false, timeUntil := closeDate - now,
          nextEvent := .closes, nextEventTime := closeDate,
          holidayName := holidayName, isOnLunch := false,
          lunchStart := some lunchStartDate, lunchEnd := some lunchEndDate }
    | _, _ =>
      { isOpen := true, isWeekend := false, timeUntil := closeDate - now,
        nextEvent := .closes, nextEventTime := closeDate,
        holidayName := holidayName, isOnLunch := false,
        lunchStart := none, lunchEnd := none }
  else
    let potentialNextOpen :=
      openDate + (if dayInMarket = 5 then 3 else 1) * 86400000
    let nextOpen := findNextTradingDay cfg market.id market.timezone 14 potentialNextOpen
    let nextDayHoliday := holidayForDate cfg market.id market.timezone potentialNextOpen
    { isOpen := false, isWeekend := false, timeUntil := nextOpen - now,
      nextEvent := .opens, nextEventTime := nextOpen,
      holidayName :=
        match nextDayHoliday with
        | some h => if h.status = .closed then some h.name else none
        | none => none }

/-- `getMarketStatus(market, overrides)` from src/timezone.ts, with the
ambient holiday cache and the Clock Source reading passed explicitly.
The today-is-a-holiday block runs first: a `closed` entry returns the
holiday-closed record; an `early-close` entry replaces the effective close
time when it carries one; in both remaining cases control continues into
`statusMain` with the entry's name recorded. -/
def getMarketStatus (cfg : HolidaysConfig) (market : Market)
    (ov : TimeOverride) (now : Int) : MarketStatus :=
  let openT := ov.openTime.getD market.openTime
  let closeT := ov.closeTime.getD market.closeTime
  match holidayForDate cfg market.id market.timezone now with
  | some h =>
    if h.status = .closed then
      let tomorrow := parseTimeInTimezone market.timezone now openT + 86400000
      let nextOpen := findNextTradingDay cfg market.id market.timezone 14 tomorrow
      { isOpen := false, isWeekend := false, timeUntil := nextOpen - now,
        nextEvent := .opens, nextEventTime := nextOpen,
        holidayName := some h.name, isTodayHoliday := true }
    else
      statusMain cfg market now openT
        (if h.status = .earlyClose then h.closeTime.getD closeT else closeT)
        (some h.name)
  | none => statusMain cfg market now openT closeT none

/-- A fixed UTC−5 market (New-York-like outside DST): opens 09:30, closes
16:00 exchange-local. -/
def mkt3 : Market :=
  { id := "m", timezone := ⟨fun _ => -300⟩, openTime := 570, closeTime := 960 }

/-- Holiday table containing the spec's example entry: 2026-01-01 is a
full-closure holiday. -/
def cfg3 : HolidaysConfig :=
  [(2026, [("m", .entries [{ date := ⟨2026, 1, 1⟩, name := "New Year", status := .closed }])])]

/-- Holiday table with one alias hop, the spec's nasdaq → nyse example. -/
def cfg5 : HolidaysConfig :=
  [(2026, [("nasdaq", .aliasTo "nyse"),
           ("nyse", .entries [{ date := ⟨2026, 1, 1⟩, name := "New Year", status := .closed }])])]

/-- Holiday table in which the alias target is itself an alias. -/
def cfg5bad : HolidaysConfig :=
  [(2026, [("a", .aliasTo "b"), ("b", .aliasTo "c"), ("c", .entries [])])]

/-- C5: one alias hop is followed (a well-formed alias makes the aliasing
market return exactly the target's entries; absent years and markets give
the empty list), but on an alias-to-alias table the function does NOT
degrade to the empty list: it returns the unresolved second alias string
itself, a value outside its declared `Holiday[]` return type. -/
theorem getMarketHolidays_alias_behavior :
    getMarketHolidays cfg5 "nasdaq" 2026 = getMarketHolidays cfg5 "nyse" 2026 ∧
    getMarketHolidays cfg5 "nasdaq" 2026 =
      .entries [{ date := ⟨2026, 1, 1⟩, name := "New Year", status := .closed }] ∧
    getMarketHolidays cfg5 "nasdaq" 2025 = .entries [] ∧
    getMarketHolidays cfg5 "lse" 2026 = .entries [] ∧
    getMarketHolidays cfg5bad "a" 2026 = .aliasTo "c" ∧
    getMarketHolidays cfg5bad "a" 2026 ≠ .entries [] := by
  refine ⟨by decide, by decide, by decide, by decide, by decide, by decide⟩

/-- C4: one step of the next-trading-day search advances 2 days on a
Saturday, 1 day on a Sunday, 1 day on a full-closure holiday, and
otherwise stops, returning the current candidate; when the 14-iteration
fuel is exhausted the last candidate is returned unchanged (the degraded
fallback). -/
theorem findNextTradingDay_spec (cfg : HolidaysConfig) (mid : String)
    (tz : Timezone) (fuel : Nat) (c : Int) :
    (getDayInMarket tz c = 6 →
      findNextTradingDay cfg mid tz (fuel + 1) c =
        findNextTradingDay cfg mid tz fuel (c + 2 * 86400000)) ∧
    (getDayInMarket tz c = 0 →
      findNextTradingDay cfg mid tz (fuel + 1) c =
        findNextTradingDay cfg mid tz fuel (c + 86400000)) ∧
    (∀ h, getDayInMarket tz c ≠ 0 → getDayInMarket tz c ≠ 6 →
      holidayForDate cfg mid tz c = some h → h.status = .closed →
      findNextTradingDay cfg mid tz (fuel + 1) c =
        findNextTradingDay cfg mid tz fuel (c + 86400000)) ∧
    (getDayInMarket tz c ≠ 0 → getDayInMarket tz c ≠ 6 →
      (∀ h, holidayForDate cfg mid tz c = some h → h.status ≠ .closed) →
      findNextTradingDay cfg mid tz (fuel + 1) c = c) ∧
    findNextTradingDay cfg mid tz 0 c = c := by
  refine ⟨?_, ?_, ?_, ?_, rfl⟩
  · intro h6
    simp [findNextTradingDay, h6]
  · intro h0
    simp [findNextTradingDay, h0]
  · intro h h0 h6 hh hc
    simp [findNextTradingDay, h0, h6, hh, hc]
  · intro h0 h6 hstop
    rcases hh : holidayForDate cfg mid tz c with _ | h
    · simp [findNextTradingDay, h0, h6, hh]
    · simp [findNextTradingDay, h0, h6, hh, hstop h hh]

/-- Witness for the search step theorem: starting at an instant whose
exchange-local day (in UTC) is Saturday 1970-01-03, the search advances by
exactly two days. -/
theorem findNextTradingDay_spec_witness :
    findNextTradingDay [] "m" ⟨fun _ => 0⟩ 14 172800000 =
      findNextTradingDay [] "m" ⟨fun _ => 0⟩ 13 (172800000 + 2 * 86400000) :=
  (findNextTradingDay_spec [] "m" ⟨fun _ => 0⟩ 13 172800000).1 (by decide)

-- In every branch of the post-holiday flow, `timeUntil` is the next event
-- instant minus `now`.
theorem statusMain_timeUntil_eq (cfg : HolidaysConfig) (market : Market)
    (now openT closeT : Int) (hname : Option String) :
    (statusMain cfg market now openT closeT hname).timeUntil =
      (statusMain cfg market now openT closeT hname).nextEventTime - now := by
  unfold statusMain
  simp only []
  split_ifs <;> first
    | rfl
    | (split <;> first | rfl | (split_ifs <;> rfl))

-- In the branches whose next event is not `opens`, the branch guard makes
-- `timeUntil` nonnegative.
theorem statusMain_nonneg (cfg : HolidaysConfig) (market : Market)
    (now openT closeT : Int) (hname : Option String) :
    (statusMain cfg market now openT closeT hname).nextEvent ≠ NextEvent.opens →
      0 ≤ (statusMain cfg market now openT closeT hname).timeUntil := by
  unfold statusMain
  simp only []
  split_ifs <;> (try split) <;> (try split_ifs) <;> intro hne <;>
    first
      | exact absurd rfl hne
      | (dsimp only; omega)

-- The post-holiday flow never sets the today-is-a-holiday flag.
theorem statusMain_not_todayHoliday (cfg : HolidaysConfig) (market : Market)
    (now openT closeT : Int) (hname : Option String) :
    (statusMain cfg market now openT closeT hname).isTodayHoliday = false := by
  unfold statusMain
  simp only []
  split_ifs <;> first
    | rfl
    | (split <;> first | rfl | (split_ifs <;> rfl))

-- On a non-weekend day, before the effective close, the post-holiday flow
-- reports exactly the holiday name it was given.
theorem statusMain_holidayName (cfg : HolidaysConfig) (market : Market)
    (now openT closeT : Int) (hname : Option String)
    (h0 : getDayInMarket market.timezone now ≠ 0)
    (h6 : getDayInMarket market.timezone now ≠ 6)
    (hcl : now < parseTimeInTimezone market.timezone now closeT) :
    (statusMain cfg market now openT closeT hname).holidayName = hname := by
  unfold statusMain
  simp only []
  split_ifs <;> first
    | (exfalso; omega)
    | rfl
    | tauto
    | (split <;> first | rfl | (split_ifs <;> rfl))

/-- C2 (amended): in every branch of `getMarketStatus`, `timeUntil` equals
`nextEventTime − now` in milliseconds; in the branches whose next event is
`closes`, `lunch-starts` or `reopens` it is nonnegative by the branch
guard.  In the `opens` branches it can be negative (see the
counterexample), so the original "never negative" does not hold. -/
theorem getMarketStatus_timeUntil_spec (cfg : HolidaysConfig)
    (market : Market) (ov : TimeOverride) (now : Int)
    (_hwf : wellFormedConfig cfg = true) :
    (getMarketStatus cfg market ov now).timeUntil =
      (getMarketStatus cfg market ov now).nextEventTime - now ∧
    ((getMarketStatus cfg market ov now).nextEvent ≠ NextEvent.opens →
      0 ≤ (getMarketStatus cfg market ov now).timeUntil) := by
  unfold getMarketStatus
  simp only []
  split
  all_goals try split_ifs
  all_goals first
    | exact ⟨rfl, fun hne => absurd rfl hne⟩
    | exact ⟨statusMain_timeUntil_eq _ _ _ _ _ _, statusMain_nonneg _ _ _ _ _ _⟩

/-- Witness for the `timeUntil` theorem at a concrete open-market instant:
the NY-like market at 2026-01-01T17:00Z with an empty (well-formed)
holiday table. -/
theorem getMarketStatus_timeUntil_spec_witness :
    (getMarketStatus [] mkt3 {} 1767286800000).timeUntil =
        (getMarketStatus [] mkt3 {} 1767286800000).nextEventTime -
          1767286800000 ∧
      0 ≤ (getMarketStatus [] mkt3 {} 1767286800000).timeUntil := by
  have h := getMarketStatus_timeUntil_spec [] mkt3 {} 1767286800000 (by decide)
  exact ⟨h.1, h.2 (by decide)⟩

/-- The UTC−12 market of the C2 counterexample: Etc/GMT+12 with default
hours 09:30–16:00. -/
def mktGMTPlus12 : Market :=
  { id := "m", timezone := etcGMTPlus12, openTime := 570, closeTime := 960 }

/-- C2 counterexample: for the UTC−12 market on Tuesday 1970-01-06 at
18:00 exchange-local (instant 540000000) with no holidays, the after-close
branch's offset derivation misplaces the open instant a day early and
`timeUntil` is −30 600 000 ms (−8.5 h), so it is not "never negative". -/
theorem getMarketStatus_negative_timeUntil :
    (getMarketStatus [] mktGMTPlus12 {} 540000000).timeUntil = -30600000 ∧
      (getMarketStatus [] mktGMTPlus12 {} 540000000).timeUntil < 0 := by
  refine ⟨by decide, by decide⟩

/-- C3: when today's exchange-local date carries a full-closure holiday
entry, `getMarketStatus` returns the holiday-closed record: not open, not
weekend, today-is-holiday set, next event `opens` at the result of the
next-trading-day search seeded with the day after today's open instant;
and, concretely, the spec's example — a `closed` entry on Thursday
2026-01-01 for a UTC−5 market — yields `nextEventTime` equal to Friday
2026-01-02's open instant 2026-01-02T14:30:00Z. -/
theorem getMarketStatus_holiday_closed (cfg : HolidaysConfig)
    (market : Market) (ov : TimeOverride) (now : Int) (h : Holiday)
    (_hwf : wellFormedConfig cfg = true)
    (hh : holidayForDate cfg market.id market.timezone now = some h)
    (hc : h.status = .closed) :
    getMarketStatus cfg market ov now =
      { isOpen := false, isWeekend := false,
        timeUntil :=
          findNextTradingDay cfg market.id market.timezone 14
            (parseTimeInTimezone market.timezone now
              (ov.openTime.getD market.openTime) + 86400000) - now,
        nextEvent := .opens,
        nextEventTime :=
          findNextTradingDay cfg market.id market.timezone 14
            (parseTimeInTimezone market.timezone now
              (ov.openTime.getD market.openTime) + 86400000),
        holidayName := some h.name, isTodayHoliday := true } ∧
    getMarketStatus cfg3 mkt3 {} 1767286800000 =
      { isOpen := false, isWeekend := false, timeUntil := 77400000,
        nextEvent := .opens, nextEventTime := 1767364200000,
        holidayName := some "New Year", isTodayHoliday := true } := by
  constructor
  · unfold getMarketStatus
    simp only []
    rw [hh]
    simp only [hc]
    rfl
  · decide

/-- Witness for the holiday-closed theorem at the spec's concrete
example. -/
theorem getMarketStatus_holiday_closed_witness :
    getMarketStatus cfg3 mkt3 {} 1767286800000 =
      { isOpen := false, isWeekend := false, timeUntil := 77400000,
        nextEvent := .opens, nextEventTime := 1767364200000,
        holidayName := some "New Year", isTodayHoliday := true } := by
  have h := getMarketStatus_holiday_closed cfg3 mkt3 {} 1767286800000
    { date := ⟨2026, 1, 1⟩, name := "New Year", status := .closed }
    (by decide) (by decide) rfl
  exact h.2

/-- Holiday table for the C10 scenarios: Tuesday 2026-01-06 is an
early-close entry named "X" that carries no replacement close time. -/
def cfg10 : HolidaysConfig :=
  [(2026, [("m", .entries [{ date := ⟨2026, 1, 6⟩, name := "X", status := .earlyClose }])])]

/-- C10 (amended): when today's holiday entry is `early-close` but carries
no close time, classification proceeds through the regular flow with the
unmodified effective close time (override if present, else default), the
day is not flagged as a full-closure holiday, and the entry's name is
reported as `holidayName` in the before-open, on-lunch and open branches —
though not in the weekend and after-close branches, which replace it (see
the counterexample). -/
theorem earlyClose_noCloseTime_spec (cfg : HolidaysConfig)
    (market : Market) (ov : TimeOverride) (now : Int) (h : Holiday)
    (_hwf : wellFormedConfig cfg = true)
    (hh : holidayForDate cfg market.id market.timezone now = some h)
    (hs : h.status = .earlyClose) (hct : h.closeTime = none) :
    getMarketStatus cfg market ov now =
      statusMain cfg market now (ov.openTime.getD market.openTime)
        (ov.closeTime.getD market.closeTime) (some h.name) ∧
    (getMarketStatus cfg market ov now).isTodayHoliday = false ∧
    (getDayInMarket market.timezone now ≠ 0 →
      getDayInMarket market.timezone now ≠ 6 →
      now < parseTimeInTimezone market.timezone now
          (ov.closeTime.getD market.closeTime) →
      (getMarketStatus cfg market ov now).holidayName = some h.name) := by
  have hmain : getMarketStatus cfg market ov now =
      statusMain cfg market now (ov.openTime.getD market.openTime)
        (ov.closeTime.getD market.closeTime) (some h.name) := by
    unfold getMarketStatus
    simp only []
    rw [hh]
    simp only [hs, hct]
    rfl
  refine ⟨hmain, ?_, ?_⟩
  · rw [hmain]
    exact statusMain_not_todayHoliday _ _ _ _ _ _
  · intro h0 h6 hcl
    rw [hmain]
    exact statusMain_holidayName _ _ _ _ _ _ h0 h6 hcl

/-- Instant 2026-01-06T17:00:00Z: noon exchange-local on the early-close
day for the UTC−5 market. -/
def nowNoon10 : Int := 1767718800000

/-- Instant 2026-01-06T23:00:00Z: 18:00 exchange-local, after the close. -/
def nowEvening10 : Int := 1767740400000

/-- Witness for the early-close-without-close-time theorem: at noon on the
early-close day the market is classified open with the entry's name
reported and the default close still in effect. -/
theorem earlyClose_noCloseTime_spec_witness :
    (getMarketStatus cfg10 mkt3 {} nowNoon10).holidayName = some "X" ∧
      (getMarketStatus cfg10 mkt3 {} nowNoon10).isTodayHoliday = false := by
  have h := earlyClose_noCloseTime_spec cfg10 mkt3 {} nowNoon10
    { date := ⟨2026, 1, 6⟩, name := "X", status := .earlyClose }
    (by decide) (by decide) rfl rfl
  exact ⟨h.2.2 (by decide) (by decide) (by decide), h.2.1⟩

/-- C10 counterexample: on that same early-close-without-close-time day,
an instant after the close falls into the after-close branch, which
reports `holidayName := none` — the entry's name "X" is not reported, so
the name is not "still reported" in every branch.  (The schedule itself is
still the unmodified one: next open is Wednesday 2026-01-07T14:30:00Z.) -/
theorem earlyClose_noCloseTime_name_lost :
    holidayForDate cfg10 mkt3.id mkt3.timezone nowEvening10 =
      some { date := ⟨2026, 1, 6⟩, name := "X", status := .earlyClose } ∧
    (getMarketStatus cfg10 mkt3 {} nowEvening10).holidayName = none ∧
    (getMarketStatus cfg10 mkt3 {} nowEvening10).nextEventTime = 1767796200000 := by
  refine ⟨by decide, by decide, by decide⟩

/-- The mutable state of the `TimeService` singleton
(src/timeService.ts): a clock offset, a paused flag with its frozen
instant, and the display-timezone override. -/
structure ClockState where
  clockOffset : Int := 0
  isPaused : Bool := false
  frozenTime : Int := 0
  timezoneOverride : Option String := none
deriving DecidableEq

namespace TimeService

/-- `getNow()`: the frozen instant when paused, otherwise the real clock
(`realNow`, the value of `Date.now()`) plus the offset. -/
def getNow (s : ClockState) (realNow : Int) : Int :=
  if s.isPaused then s.frozenTime else realNow + s.clockOffset

/-- `setTime(date)`: set the offset so that `getNow` equals the target at
the current real instant; when paused, also move the frozen instant. -/
def setTime (s : ClockState) (realNow target : Int) : ClockState :=
  { s with clockOffset := target - realNow,
           frozenTime := if s.isPaused then target else s.frozenTime }

/-- `freeze()`: capture the current simulated time and enter the paused
state; a no-op when already paused. -/
def freeze (s : ClockState) (realNow : Int) : ClockState :=
  if s.isPaused then s
  else { s with frozenTime := getNow s realNow, isPaused := true }

/-- `unfreeze()`: recompute the offset so time resumes from the frozen
instant and leave the paused state; a no-op when not paused. -/
def unfreeze (s : ClockState) (realNow : Int) : ClockState :=
  if s.isPaused then
    { s with clockOffset := s.frozenTime - realNow, isPaused := false }
  else s

end TimeService

/-- C6: `setTime(target)` makes an immediately following `getNow()` (same
real-clock reading) return `target`; while paused, `setTime(x)` makes
every later `getNow()` return exactly `x` whatever the real clock does;
and `freeze` and `unfreeze` are idempotent — a second call at any later
real instant leaves the state unchanged. -/
theorem timeService_control_spec (s : ClockState) (r r2 target x : Int) :
    TimeService.getNow (TimeService.setTime s r target) r = target ∧
    (s.isPaused = true → TimeService.getNow (TimeService.setTime s r x) r2 = x) ∧
    TimeService.freeze (TimeService.freeze s r) r2 = TimeService.freeze s r ∧
    TimeService.unfreeze (TimeService.unfreeze s r) r2 = TimeService.unfreeze s r := by
  unfold TimeService.getNow TimeService.setTime TimeService.freeze TimeService.unfreeze
  rcases s with ⟨o, p, f, tzo⟩
  cases p <;> simp

/-- Witness for the Clock Source theorem: a paused state scrubbed to 99
reads 99 at a later real instant. -/
theorem timeService_control_spec_witness :
    TimeService.getNow
        (TimeService.setTime ⟨0, true, 5, none⟩ 1 99) 2 = 99 :=
  (timeService_control_spec ⟨0, true, 5, none⟩ 1 2 99 99).2.1 rfl

/-- `String(n).padStart(2, '0')` for the nonnegative component values the
countdown formatter produces. -/
def countdownPad (n : Int) : String :=
  if n < 10 then "0" ++ toString n else toString n

/-- `formatCountdown(ms)` from src/timezone.ts: clamp negatives to
"00:00:00", otherwise render days/hours/minutes/seconds, prefixing
"Nd " only when at least one full day remains. -/
def formatCountdown (ms : Int) : String :=
  if ms < 0 then "00:00:00"
  else
    let seconds := ms / 1000 % 60
    let minutes := ms / 60000 % 60
    let hours := ms / 3600000 % 24
    let days := ms / 86400000
    if days > 0 then
      toString days ++ "d " ++ countdownPad hours ++ ":" ++ countdownPad minutes
        ++ ":" ++ countdownPad seconds
    else
      countdownPad hours ++ ":" ++ countdownPad minutes ++ ":" ++ countdownPad seconds

/-- The total duration, in whole seconds, denoted by the components the
formatter displays (0 for the clamped negative case). -/
def displayedSeconds (ms : Int) : Int :=
  if ms < 0 then 0
  else ms / 86400000 * 86400 + ms / 3600000 % 24 * 3600
    + ms / 60000 % 60 * 60 + ms / 1000 % 60

-- A padded component in [0, 60) renders as exactly two characters.
theorem countdownPad_length (n : Int) (h1 : 0 ≤ n) (h2 : n < 60) :
    (countdownPad n).length = 2 := by
  interval_cases n <;> decide

/-- C8: `formatCountdown` clamps every negative input to "00:00:00";
below one day it renders the three padded two-character components
("HH:MM:SS", 8 characters); at one day or more it prefixes the day count
and "d "; and the displayed duration — `displayedSeconds`, the value the
rendered components denote — is `ms / 1000` clamped at 0, hence
monotonically non-increasing as `ms` decreases. -/
theorem formatCountdown_spec (ms ms2 : Int) :
    (ms < 0 → formatCountdown ms = "00:00:00") ∧
    (0 ≤ ms → ms < 86400000 →
      formatCountdown ms =
        countdownPad (ms / 3600000 % 24) ++ ":" ++ countdownPad (ms / 60000 % 60)
          ++ ":" ++ countdownPad (ms / 1000 % 60) ∧
      (formatCountdown ms).length = 8) ∧
    (86400000 ≤ ms →
      formatCountdown ms =
        toString (ms / 86400000) ++ "d " ++ countdownPad (ms / 3600000 % 24)
          ++ ":" ++ countdownPad (ms / 60000 % 60) ++ ":"
          ++ countdownPad (ms / 1000 % 60)) ∧
    displayedSeconds ms = (if ms < 0 then 0 else ms / 1000) ∧
    (ms2 ≤ ms → displayedSeconds ms2 ≤ displayedSeconds ms) := by
  refine ⟨?_, ?_, ?_, ?_, ?_⟩
  · intro h
    simp [formatCountdown, h]
  · intro h0 h1
    have hd : ¬ ms / 86400000 > 0 := by omega
    have heq : formatCountdown ms =
        countdownPad (ms / 3600000 % 24) ++ ":" ++ countdownPad (ms / 60000 % 60)
          ++ ":" ++ countdownPad (ms / 1000 % 60) := by
      simp [formatCountdown, hd, not_lt.mpr h0]
    refine ⟨heq, ?_⟩
    rw [heq]
    simp only [String.length_append]
    rw [countdownPad_length _ (by omega) (by omega),
      countdownPad_length _ (by omega) (by omega),
      countdownPad_length _ (by omega) (by omega)]
    rfl
  · intro h1
    have hd : ms / 86400000 > 0 := by omega
    have hnn : ¬ ms < 0 := by omega
    simp [formatCountdown, hd, hnn]
  · unfold displayedSeconds
    split_ifs <;> omega
  · intro hle
    unfold displayedSeconds
    split_ifs <;> omega

/-- Witness for the countdown theorem: one hour, one minute and one second
render as "01:01:01". -/
theorem formatCountdown_spec_witness :
    formatCountdown 3661000 =
      countdownPad 1 ++ ":" ++ countdownPad 1 ++ ":" ++ countdownPad 1 := by
  have h := ((formatCountdown_spec 3661000 0).2.1 (by norm_num) (by norm_num)).1
  exact h.trans (by norm_num)

/-- The longest leading run of decimal digits of a character list, with
the remainder — the text a greedy `\d+` group consumes. -/
def spanDigits : List Char → List Char × List Char
  | [] => ([], [])
  | c :: cs =>
    if c.isDigit then
      let p := spanDigits cs
      (c :: p.1, p.2)
    else ([], c :: cs)

/-- `parseInt` on a run of decimal digits ('0' on an empty run, matching
the code's `match[k] || '0'` defaults). -/
def digitsVal (ds : List Char) : Nat :=
  ds.foldl (fun a c => a * 10 + (c.toNat - 48)) 0

/-- The suffix following the first occurrence of "GMT" in a character
list, if any — where the regex `GMT([+-]?)(\d+)?(?::(\d+))?` first
matches. -/
def findGMT : List Char → Option (List Char)
  | 'G' :: 'M' :: 'T' :: rest => some rest
  | _ :: cs => findGMT cs
  | [] => none

/-- `getGMTOffset(timezone)` from src/timezone.ts.  The platform
`Intl.DateTimeFormat(..., {timeZoneName: 'shortOffset'})` rendering is
abstracted as the function's input: `none` models the `RangeError` an
invalid timezone name raises in the constructor (caught, yielding 0), and
`some s` the formatted string (e.g. "GMT+5:30" for Asia/Kolkata).  The
code matches `GMT([+-]?)(\d+)?(?::(\d+))?` and returns
`sign * (hours + minutes / 60)` as a decimal number, or 0 when nothing
matches. -/
def getGMTOffset (fmtOutput : Option String) : ℚ :=
  match fmtOutput with
  | none => 0
  | some s =>
    match findGMT s.toList with
    | none => 0
    | some rest =>
      let signed : Int × List Char :=
        match rest with
        | '-' :: r => (-1, r)
        | '+' :: r => (1, r)
        | r => (1, r)
      let hp := spanDigits signed.2
      let hours : Nat := digitsVal hp.1
      let minutes : Nat :=
        match hp.2 with
        | ':' :: r => digitsVal (spanDigits r).1
        | _ => 0
      (signed.1 : ℚ) * ((hours : ℚ) + (minutes : ℚ) / 60)

/-- C9: the offset parser returns the signed decimal-hour value encoded by
a "GMT±H[:MM]"-shaped short-offset string — 5.5 for Asia/Kolkata's
"GMT+5:30", including fractional half-hours — and returns 0 without
raising when the timezone is invalid (no formatter output) or when the
formatted string contains no "GMT" at all. -/
theorem getGMTOffset_spec :
    getGMTOffset none = 0 ∧
    getGMTOffset (some "GMT+5:30") = 5.5 ∧
    getGMTOffset (some "GMT+9") = 9 ∧
    getGMTOffset (some "GMT-5") = -5 ∧
    getGMTOffset (some "GMT") = 0 ∧
    (∀ s : String, findGMT s.toList = none → getGMTOffset (some s) = 0) := by
  refine ⟨rfl, ?_, ?_, ?_, ?_, ?_⟩
  · simp +decide [getGMTOffset, findGMT, spanDigits, digitsVal]
    norm_num
  · simp +decide [getGMTOffset, findGMT, spanDigits, digitsVal]
  · simp +decide [getGMTOffset, findGMT, spanDigits, digitsVal]
  · simp +decide [getGMTOffset, findGMT, spanDigits, digitsVal]
  · intro s hs
    simp only [getGMTOffset, hs]

/-- Witness for the offset-parser theorem: a string with no "GMT" in it
parses to 0. -/
theorem getGMTOffset_spec_witness : getGMTOffset (some "UTC") = 0 :=
  (getGMTOffset_spec).2.2.2.2.2 "UTC" (by decide)
